import Mathlib

/-!
# Verification of the huggingface-rs mirrored-asset downloader

A shallow embedding of `src/main.rs` of the `huggingface-rs` repository.
Strings are modelled by Lean `String` (lists of characters); Rust string
operations (`trim`, `split`, `split_once`, `strip_prefix("/")`,
`strip_suffix("/")`, `ends_with("/")`) are re-implemented below over
`List Char`, faithfully to their Rust semantics on the inputs the program
feeds them.  `reqwest::Url` is modelled for absolute `scheme://host/path`
URLs without query/fragment/userinfo/port, which is the shape of every URL
the program parses or joins.  Fallible operations (`Url::parse`,
`Option::unwrap`, `expect`, clap's `cmd.error(..).exit()`) are modelled with
`Option`/`Except`: `none` stands for the process-terminating path (error
exit or panic).
-/

set_option autoImplicit false

namespace HuggingfaceRs

/-- Model of Rust `char::is_whitespace` restricted to the ASCII whitespace
characters that can occur in `git lfs ls-files` output and CLI arguments. -/
def isWs (c : Char) : Bool :=
  c = ' ' || c = '\t' || c = '\n' || c = '\r'

/-- Model of Rust `str::trim`: drop whitespace from both ends. -/
def rustTrim (s : List Char) : List Char :=
  ((s.dropWhile isWs).reverse.dropWhile isWs).reverse

/-- Model of Rust `str::split(sep)` for a one-character separator: the list
of (possibly empty) fragments between occurrences of `sep`.  As in Rust,
splitting the empty string yields `[[]]`. -/
def splitOnChar (sep : Char) : List Char → List (List Char)
  | [] => [[]]
  | c :: rest =>
    let r := splitOnChar sep rest
    if c = sep then [] :: r else (c :: r.headD []) :: r.tail

/-- Model of Rust `str::split_once(sep)` for a one-character separator:
`some (before, after)` around the first occurrence of `sep`, `none` when
`sep` does not occur. -/
def splitOnceChar (sep : Char) : List Char → Option (List Char × List Char)
  | [] => none
  | c :: rest =>
    if c = sep then some ([], rest)
    else (splitOnceChar sep rest).map (fun p => (c :: p.1, p.2))

/-- Model of `List.isPrefixOf` by explicit recursion: `leadsWith pre s` is
true when `pre` is an initial segment of `s`. -/
def leadsWith : List Char → List Char → Bool
  | [], _ => true
  | _ :: _, [] => false
  | a :: as, b :: bs => a = b && leadsWith as bs

/-- Model of Rust `str::strip_prefix(pre)`: remove `pre` from the front,
`none` when `s` does not start with `pre`. -/
def stripLead (pre s : List Char) : Option (List Char) :=
  if leadsWith pre s then some (s.drop pre.length) else none

/-- Model of Rust `str::strip_suffix(suf)`: remove `suf` from the back,
`none` when `s` does not end with `suf`. -/
def stripTail (suf s : List Char) : Option (List Char) :=
  if leadsWith suf.reverse s.reverse then some ((s.reverse.drop suf.length).reverse)
  else none

/-- Model of Rust `str::ends_with("/")` as used in `check_args`
(main.rs lines 90 and 108): the last character is `'/'`. -/
def endsWithSlash (s : String) : Bool :=
  s.data.getLast? = some '/'

/-- The `ORIGIN_ENDPOINT` constant (main.rs line 25). -/
def ORIGIN_ENDPOINT : String := "https://huggingface.co/"

/-- The `DEFAULT_ENDPOINT` constant (main.rs line 22). -/
def DEFAULT_ENDPOINT : String := "https://hf-mirror.com/"

/-- The `DEFAULT_PROXY` constant (main.rs line 23). -/
def DEFAULT_PROXY : String := "https://hg.whl.moe/"

/-- Model of `reqwest::Url` for absolute `scheme://host/path` URLs, the only
shape the program constructs: no query, fragment, userinfo or port. -/
structure Url where
  scheme : String
  host : String
  path : String
deriving DecidableEq, Repr

/-- Model of `Url::to_string()` for the URL shapes of this program. -/
def urlToString (u : Url) : String :=
  u.scheme ++ "://" ++ u.host ++ u.path

/-- First occurrence of the character sequence `sep` inside `s`:
`some (before, after)` splits around it, `none` when absent.  Used to model
locating `"://"` in `Url::parse`. -/
def splitOnceSeq (sep : List Char) : List Char → Option (List Char × List Char)
  | [] => if sep.isEmpty then some ([], []) else none
  | c :: rest =>
    if leadsWith sep (c :: rest) then some ([], (c :: rest).drop sep.length)
    else (splitOnceSeq sep rest).map (fun p => (c :: p.1, p.2))

/-- Model of `Url::parse` on the absolute-URL shapes this program parses
(`scheme://host[/path]`): the scheme is the text before the first `"://"`,
the host runs to the next `'/'`, and a missing path component is normalized
to `"/"` exactly as `reqwest::Url` does.  `none` models a parse error
(empty scheme or host, or no `"://"`). -/
def parseUrl (s : String) : Option Url :=
  match splitOnceSeq [':', '/', '/'] s.data with
  | none => none
  | some (scheme, rest) =>
    if scheme.isEmpty then none
    else
      let host := rest.takeWhile (fun c => c ≠ '/')
      let pathRest := rest.dropWhile (fun c => c ≠ '/')
      if host.isEmpty then none
      else some ⟨String.mk scheme, String.mk host, if pathRest.isEmpty then "/" else String.mk pathRest⟩

/-- Drop the characters after the last `'/'` of a path (keeping that slash):
the RFC 3986 "merge" step used by `Url::join` for a relative reference. -/
def dropAfterLastSlash (p : List Char) : List Char :=
  (p.reverse.dropWhile (fun c => c ≠ '/')).reverse

/-- Model of `Url::join(rel)` for a relative reference `rel` that does not
start with `'/'` and contains no `"."`/`".."` segments — the only way the
program calls it (`check_args` joins `file_path + "/"`, and
`check_repo_authority` joins a literal): the base path up to its last
`'/'` is extended with `rel`. -/
def joinUrl (u : Url) (rel : String) : Url :=
  { u with path := String.mk (dropAfterLastSlash u.path.data ++ rel.data) }

/-- Model of the trailing-slash normalization applied to both base URLs in
`check_args` (main.rs lines 89-94 and 107-112): append `"/"` unless the
string already ends with it. -/
def normalizeBase (s : String) : String :=
  if endsWithSlash s then s else s ++ "/"

/-- Model of the repo-id parsing in `check_args` (main.rs lines 71-77 and
166-173): trim the id, split on `'/'`, and require at least two fragments
(`if let [author, item, ..] = splits[..]`).  `none` models the
`InvalidValue` error exit. -/
def checkRepoId (repoId : String) : Option (String × String) :=
  match splitOnChar '/' (rustTrim repoId.data) with
  | author :: item :: _ => some (String.mk author, String.mk item)
  | _ => none

/-- Model of `check_args` (main.rs lines 64-175), minus the network health
probes and directory creation, which do not affect the values returned:
given the repo id, the endpoint and proxy base strings (after
`unwrap_or(default)`), and the local directory, produce
`(endpoint_url, proxy_url, save_path, file_path)`.  `none` models every
error-exit path (bad repo id, unparseable URL). -/
def check_args (repoId endpointArg proxyArg localDir : String) :
    Option (Url × Url × String × String) :=
  match checkRepoId repoId with
  | none => none
  | some (author, item) =>
    let file_path := author ++ "/" ++ item
    match parseUrl (normalizeBase endpointArg) with
    | none => none
    | some base =>
      let endpoint_url := joinUrl base (file_path ++ "/")
      match parseUrl (normalizeBase proxyArg) with
      | none => none
      | some proxy_url =>
        let save_path := localDir ++ "/" ++ item
        some (endpoint_url, proxy_url, save_path, file_path)

/-- Model of `endpoint.path().strip_prefix("/").unwrap().strip_suffix("/").unwrap()`
(main.rs lines 252-256): `none` models a panic of either `unwrap`. -/
def repoPathOf (endpoint : Url) : Option String :=
  match stripLead ['/'] endpoint.path.data with
  | none => none
  | some t =>
    match stripTail ['/'] t with
    | none => none
    | some r => some (String.mk r)

/-- Model of the `format!` building the download URL (main.rs lines 249-259):
`proxy.to_string() ++ ORIGIN_ENDPOINT ++ repoPath ++ "/resolve/main/" ++ fileName`. -/
def mkUrlString (proxy : Url) (repoPath fileName : String) : String :=
  urlToString proxy ++ ORIGIN_ENDPOINT ++ repoPath ++ "/resolve/main/" ++ fileName

/-- The end-to-end URL resolution: run `check_args` on the raw inputs and
build the download URL for one asset exactly as `main` does.  `none` models
an error exit or panic on the way. -/
def resolveUrl (repoId endpointArg proxyArg assetName : String) : Option String :=
  match check_args repoId endpointArg proxyArg "." with
  | none => none
  | some (endpoint_url, proxy_url, _, _) =>
    match repoPathOf endpoint_url with
    | none => none
    | some rp => some (mkUrlString proxy_url rp assetName)

/-- Model of `StatusCode::is_success()`: the 2xx range `200..=299`. -/
def statusIsSuccess (s : Nat) : Bool :=
  200 ≤ s && s < 300

/-- Model of an HTTP response as `download_files` consumes it: the status
code, the optional `content_length`, and the byte stream as the list of
chunk results that `bytes_stream()` will yield, each chunk a list of bytes. -/
structure HttpResponse where
  status : Nat
  contentLength : Option Nat
  chunks : List (Except String (List Nat))
deriving Repr

/-- The observable outcome of one `download_files` call: the returned
`Result`, whether the destination file was created (truncated), the bytes
it holds on return, and the total registered with the progress bar
(`none` when no bar was created). -/
structure DownloadResult where
  result : Except String Unit
  fileCreated : Bool
  fileBytes : List Nat
  totalBytes : Option Nat
deriving Repr

/-- Model of the `while let Some(chunk_result) = stream.next().await` loop
(main.rs lines 295-302): append each successful chunk to the file bytes;
a chunk error is returned by `?` with the bytes written so far kept. -/
def streamLoop : List (Except String (List Nat)) → List Nat → Except String Unit × List Nat
  | [], acc => (Except.ok (), acc)
  | Except.error e :: _, acc => (Except.error e, acc)
  | Except.ok c :: rest, acc => streamLoop rest (acc ++ c)

/-- Model of `download_files` (main.rs lines 275-308).  The `resp` argument
is the outcome of `get(url)`: `Except.error` models a network error there.
`File::create` (line 276) runs before the request, so the file exists and
is empty on every path; a non-success status returns `Ok` with nothing
written (lines 279-282); otherwise `total_bytes` is
`content_length().unwrap_or(10485760)` (line 284) and the body is streamed
chunk by chunk into the file. -/
def download_files (resp : Except String HttpResponse) : DownloadResult :=
  match resp with
  | Except.error e =>
    { result := Except.error e, fileCreated := true, fileBytes := [], totalBytes := none }
  | Except.ok r =>
    if statusIsSuccess r.status then
      let total := r.contentLength.getD 10485760
      let s := streamLoop r.chunks []
      { result := s.1, fileCreated := true, fileBytes := s.2, totalBytes := some total }
    else
      { result := Except.ok (), fileCreated := true, fileBytes := [], totalBytes := none }

/-- A spawned task's terminal state as `JoinHandle::await` reports it:
`ok` for normal completion, `error` when the task panicked (in this
program a task panics via `expect` whenever `download_files` fails). -/
abbrev TaskOutcome := Except String Unit

/-- Number of `task.await` calls the join loop (main.rs lines 268-270)
performs before `main` returns or panics: `unwrap()` panics at the first
failed task, so awaiting stops there. -/
def joinLoopAwaited : List TaskOutcome → Nat
  | [] => 0
  | Except.ok _ :: rest => 1 + joinLoopAwaited rest
  | Except.error _ :: _ => 1

/-- Result of the join loop (main.rs lines 268-270): `Ok` when every task
completed, otherwise the first failure in spawn order, with which
`unwrap()` panics. -/
def joinLoopResult : List TaskOutcome → Except String Unit
  | [] => Except.ok ()
  | Except.ok _ :: rest => joinLoopResult rest
  | Except.error e :: _ => Except.error e

/-- Model of the per-line file-name extraction (main.rs lines 238-244):
`line.split_once("-").expect(..).1.trim().to_string()`.  `none` models the
`expect` panic on a line without `'-'`. -/
def extractFileName (line : String) : Option String :=
  (splitOnceChar '-' line.data).map (fun p => String.mk (rustTrim p.2))

/-- The text following the first `'-'` of a line, untrimmed.  Modelled from
the spec: "filename extracted as the text following the first `-`
separator" (spec §6), for comparison with `extractFileName`. -/
def specTextAfterFirstDash (line : String) : Option String :=
  (splitOnceChar '-' line.data).map (fun p => String.mk p.2)

/-- Model of `save_path.flatten(file_name)` (main.rs line 261) at the string
level. -/
def destPath (savePath fileName : String) : String :=
  savePath ++ "/" ++ fileName

/-- One `DownloadJob` as the spec's data model names it: everything `main`
computes per asset before `tokio::spawn` (main.rs lines 237-259). -/
structure DownloadJob where
  index : Nat
  total : Nat
  url : String
  dest : String
deriving DecidableEq, Repr

/-- Model of building the job for entry `(i, line)` of the listing
(the body of the closure in main.rs lines 237-259, before `tokio::spawn`):
extract the file name, build the URL, pair with the destination path.
`none` models a panic (unparseable line, or an endpoint path without
leading/trailing slash). -/
def buildJob (proxy endpoint : Url) (savePath : String) (total i : Nat) (line : String) :
    Option DownloadJob :=
  match extractFileName line with
  | none => none
  | some name =>
    match repoPathOf endpoint with
    | none => none
    | some rp =>
      some { index := i, total := total, url := mkUrlString proxy rp name,
             dest := destPath savePath name }

/-- Pair each element with its index starting at `k`: model of
`iter().enumerate()` (with `k = 0`). -/
def enumIdx {α : Type} : Nat → List α → List (Nat × α)
  | _, [] => []
  | k, a :: l => (k, a) :: enumIdx (k + 1) l

/-- Sequence a panicking map over a list: `some` of all results when every
element maps to `some`, `none` as soon as one panics — the semantics of
the `map(..).collect()` whose closure may `expect`-panic. -/
def optionTraverse {α β : Type} (f : α → Option β) : List α → Option (List β)
  | [] => some []
  | a :: l =>
    match f a with
    | none => none
    | some b =>
      match optionTraverse f l with
      | none => none
      | some bs => some (b :: bs)

/-- Model of the task fan-out (main.rs lines 237-265): one job per line of
the `git lfs ls-files` output, indexed by `enumerate()`, each job's total
being the number of lines (`files_count`, line 232).  `none` models a panic
while building some job, which aborts the whole run. -/
def buildJobs (proxy endpoint : Url) (savePath : String) (lines : List String) :
    Option (List DownloadJob) :=
  optionTraverse (fun il => buildJob proxy endpoint savePath lines.length il.1 il.2)
    (enumIdx 0 lines)

/-! ## Helper lemmas -/

theorem endsWithSlash_append (s : String) : endsWithSlash (s ++ "/") = true := by
  have h : (s ++ "/").data = s.data ++ ['/'] := String.data_append s "/"
  simp [endsWithSlash, h]

theorem normalizeBase_append_slash (s : String) (h : endsWithSlash s = false) :
    normalizeBase (s ++ "/") = normalizeBase s := by
  simp [normalizeBase, h, endsWithSlash_append]

/-! ## Claim C1 -/

/-- C1 counterexample: with repository id "google/gemma-2-2b-it", canonical
base "https://hf-mirror.com/", proxy base "https://hg.whl.moe/" and asset
"model-00001.safetensors", the constructed URL is NOT
"https://hg.whl.moe/huggingface.co/google/gemma-2-2b-it/resolve/main/model-00001.safetensors":
the `format!` inserts the whole `ORIGIN_ENDPOINT` constant, scheme
included. -/
theorem c1_url_not_claimed_string :
    resolveUrl "google/gemma-2-2b-it" "https://hf-mirror.com/" "https://hg.whl.moe/"
      "model-00001.safetensors" ≠
    some "https://hg.whl.moe/huggingface.co/google/gemma-2-2b-it/resolve/main/model-00001.safetensors" := by
  decide

/-- C1 (amended): for repository id "google/gemma-2-2b-it", canonical base
"https://hf-mirror.com/", proxy base "https://hg.whl.moe/" and asset
"model-00001.safetensors", the URL constructed for the download task equals
exactly
"https://hg.whl.moe/https://huggingface.co/google/gemma-2-2b-it/resolve/main/model-00001.safetensors"
(the proxy base followed by the full origin endpoint, scheme included). -/
theorem c1_url_end_to_end :
    resolveUrl "google/gemma-2-2b-it" "https://hf-mirror.com/" "https://hg.whl.moe/"
      "model-00001.safetensors" =
    some "https://hg.whl.moe/https://huggingface.co/google/gemma-2-2b-it/resolve/main/model-00001.safetensors" := by
  rfl

/-! ## Claim C2 -/

/-- C2: the URL construction is a deterministic pure function of
`(canonical_base, proxy_base, repository_ref, asset_name)` (equal inputs
give a byte-identical result), and its output does not change when a
trailing "/" is appended to the canonical base or to the proxy base. -/
theorem c2_resolveUrl_deterministic_slash_insensitive
    (repoId e p asset : String)
    (he : endsWithSlash e = false) (hp : endsWithSlash p = false) :
    resolveUrl repoId (e ++ "/") p asset = resolveUrl repoId e p asset ∧
    resolveUrl repoId e (p ++ "/") asset = resolveUrl repoId e p asset ∧
    (∀ r2 e2 p2 a2 : String, r2 = repoId → e2 = e → p2 = p → a2 = asset →
      resolveUrl r2 e2 p2 a2 = resolveUrl repoId e p asset) := by
  refine ⟨?_, ?_, ?_⟩
  · simp only [resolveUrl, check_args, normalizeBase_append_slash e he]
  · simp only [resolveUrl, check_args, normalizeBase_append_slash p hp]
  · intro r2 e2 p2 a2 h1 h2 h3 h4
    subst h1; subst h2; subst h3; subst h4
    rfl

/-- C2 witness: the theorem instantiated at the end-to-end inputs with the
trailing slashes removed from both bases. -/
theorem c2_witness :
    resolveUrl "google/gemma-2-2b-it" ("https://hf-mirror.com" ++ "/") "https://hg.whl.moe"
      "model-00001.safetensors" =
    resolveUrl "google/gemma-2-2b-it" "https://hf-mirror.com" "https://hg.whl.moe"
      "model-00001.safetensors" ∧
    resolveUrl "google/gemma-2-2b-it" "https://hf-mirror.com" ("https://hg.whl.moe" ++ "/")
      "model-00001.safetensors" =
    resolveUrl "google/gemma-2-2b-it" "https://hf-mirror.com" "https://hg.whl.moe"
      "model-00001.safetensors" ∧
    (∀ r2 e2 p2 a2 : String, r2 = "google/gemma-2-2b-it" → e2 = "https://hf-mirror.com" →
      p2 = "https://hg.whl.moe" → a2 = "model-00001.safetensors" →
      resolveUrl r2 e2 p2 a2 =
      resolveUrl "google/gemma-2-2b-it" "https://hf-mirror.com" "https://hg.whl.moe"
        "model-00001.safetensors") :=
  c2_resolveUrl_deterministic_slash_insensitive "google/gemma-2-2b-it" "https://hf-mirror.com"
    "https://hg.whl.moe" "model-00001.safetensors" (by decide) (by decide)

/-! ## Claim C3 -/

/-- C3: when the HTTP response has a non-success status, `download_files`
creates (truncates) the destination file, writes no body bytes to it, and
returns `Ok`. -/
theorem c3_bad_status_skips (r : HttpResponse) (h : statusIsSuccess r.status = false) :
    download_files (Except.ok r) =
      { result := Except.ok (), fileCreated := true, fileBytes := [], totalBytes := none } := by
  simp [download_files, h]

/-- C3 witness: a 404 response with a pending body is skipped: the file is
created empty and the task reports success. -/
theorem c3_witness :
    statusIsSuccess (404 : Nat) = false ∧
    download_files (Except.ok ⟨404, some 5, [Except.ok [9, 9]]⟩) =
      { result := Except.ok (), fileCreated := true, fileBytes := [], totalBytes := none } :=
  ⟨by decide, c3_bad_status_skips ⟨404, some 5, [Except.ok [9, 9]]⟩ (by decide)⟩

/-! ## Claim C6 -/

/-- C6: for a successful response the progress-bar total is the
content-length when present, and the fixed default 10485760 when absent. -/
theorem c6_total_bytes (r : HttpResponse) (h : statusIsSuccess r.status = true) :
    (download_files (Except.ok r)).totalBytes = some (r.contentLength.getD 10485760) ∧
    (∀ n : Nat, r.contentLength = some n → (download_files (Except.ok r)).totalBytes = some n) ∧
    (r.contentLength = none → (download_files (Except.ok r)).totalBytes = some 10485760) := by
  refine ⟨by simp [download_files, h], ?_, ?_⟩
  · intro n hn
    simp [download_files, h, hn]
  · intro hn
    simp [download_files, h, hn]

/-- C6 witness: a 200 response without content-length gets the default
total 10485760. -/
theorem c6_witness :
    statusIsSuccess (200 : Nat) = true ∧
    ((⟨200, none, []⟩ : HttpResponse).contentLength = none →
      (download_files (Except.ok ⟨200, none, []⟩)).totalBytes = some 10485760) :=
  ⟨by decide, (c6_total_bytes ⟨200, none, []⟩ (by decide)).2.2⟩

/-! ## Claim C9 -/

theorem streamLoop_ok_then_error (e : String) (post : List (Except String (List Nat)))
    (pre : List (List Nat)) (acc : List Nat) :
    streamLoop (pre.map Except.ok ++ Except.error e :: post) acc =
      (Except.error e, acc ++ pre.flatten) := by
  induction pre generalizing acc with
  | nil => simp [streamLoop]
  | cons c cs ih => simp [streamLoop, ih, List.append_assoc]

/-- C9: when the byte stream fails after the chunks of `pre` were received
and appended, `download_files` returns that transfer error and the
destination file holds exactly the bytes of `pre` (no rollback, deletion
or truncation). -/
theorem c9_partial_bytes_kept (r : HttpResponse) (pre : List (List Nat)) (e : String)
    (post : List (Except String (List Nat)))
    (hs : statusIsSuccess r.status = true)
    (hc : r.chunks = pre.map Except.ok ++ Except.error e :: post) :
    (download_files (Except.ok r)).result = Except.error e ∧
    (download_files (Except.ok r)).fileBytes = pre.flatten ∧
    (download_files (Except.ok r)).fileCreated = true := by
  simp [download_files, hs, hc, streamLoop_ok_then_error]

/-- C9 witness: a stream yielding 3 bytes, then a network error, leaves the
file with exactly those 3 bytes and the task failing with that error. -/
theorem c9_witness :
    statusIsSuccess (200 : Nat) = true ∧
    (download_files (Except.ok
        ⟨200, some 100, [Except.ok [1, 2, 3], Except.error "net down", Except.ok [4]]⟩)).result =
      Except.error "net down" ∧
    (download_files (Except.ok
        ⟨200, some 100, [Except.ok [1, 2, 3], Except.error "net down", Except.ok [4]]⟩)).fileBytes =
      ([[1, 2, 3]] : List (List Nat)).flatten ∧
    (download_files (Except.ok
        ⟨200, some 100, [Except.ok [1, 2, 3], Except.error "net down", Except.ok [4]]⟩)).fileCreated = true :=
  ⟨by decide,
    c9_partial_bytes_kept ⟨200, some 100, [Except.ok [1, 2, 3], Except.error "net down", Except.ok [4]]⟩
      [[1, 2, 3]] "net down" [Except.ok [4]] (by decide) rfl⟩

/-! ## Claim C4 -/

/-- C4 counterexample: with two spawned tasks whose first fails, the join
loop (`task.await.unwrap()`) awaits only 1 of the 2 tasks: `unwrap`
panics at the first observed failure instead of awaiting the rest. -/
theorem c4_join_stops_at_first_failure :
    joinLoopAwaited [Except.error "boom", Except.ok ()] = 1 ∧
    ([Except.error "boom", Except.ok ()] : List TaskOutcome).length = 2 := by
  exact ⟨rfl, rfl⟩

/-- C4 (amended): the join loop awaits tasks in spawn order.  When every
task succeeds it awaits all of them and returns success; when some task
fails, it surfaces the first failure in spawn order but has then awaited
only the tasks up to and including that failure — it stops awaiting the
remaining tasks (`unwrap` panics), rather than joining them all. -/
theorem c4_join_loop_spec (rs : List TaskOutcome) :
    ((∀ r ∈ rs, r = Except.ok ()) →
      joinLoopResult rs = Except.ok () ∧ joinLoopAwaited rs = rs.length) ∧
    (∀ (i : Nat) (e : String),
      (∀ j : Nat, j < i → rs[j]? = some (Except.ok ())) →
      rs[i]? = some (Except.error e) →
      joinLoopResult rs = Except.error e ∧ joinLoopAwaited rs = i + 1) := by
  induction rs with
  | nil =>
    refine ⟨fun _ => ⟨rfl, rfl⟩, ?_⟩
    intro i e _ hi
    simp at hi
  | cons a rest ih =>
    constructor
    · intro h
      have ha : a = Except.ok () := h a (List.mem_cons_self a rest)
      subst ha
      have hrest := ih.1 (fun r hr => h r (List.mem_cons_of_mem _ hr))
      refine ⟨hrest.1, ?_⟩
      simp [joinLoopAwaited, hrest.2, Nat.add_comm]
    · intro i e hpre hi
      match i with
      | 0 =>
        have ha : a = Except.error e := by
          simpa using hi
        subst ha
        exact ⟨rfl, rfl⟩
      | j + 1 =>
        have ha : a = Except.ok () := by
          have := hpre 0 (Nat.succ_pos j)
          simpa using this
        subst ha
        have hpre2 : ∀ k : Nat, k < j → rest[k]? = some (Except.ok ()) := by
          intro k hk
          have := hpre (k + 1) (Nat.succ_lt_succ hk)
          simpa using this
        have hi2 : rest[j]? = some (Except.error e) := by
          simpa using hi
        have hrest := ih.2 j e hpre2 hi2
        refine ⟨hrest.1, ?_⟩
        simp [joinLoopAwaited, hrest.2, Nat.add_comm]

/-- C4 witness: for the outcome list `[ok, error, ok]` the join loop
surfaces the failure of the second task after awaiting exactly 2 of the 3
tasks. -/
theorem c4_witness :
    joinLoopResult [Except.ok (), Except.error "x", Except.ok ()] = Except.error "x" ∧
    joinLoopAwaited [Except.ok (), Except.error "x", Except.ok ()] = 1 + 1 := by
  refine (c4_join_loop_spec [Except.ok (), Except.error "x", Except.ok ()]).2 1 "x" ?_ rfl
  intro j hj
  match j, hj with
  | 0, _ => rfl

/-! ## Claim C5 -/

theorem splitOnChar_ne_nil (sep : Char) (l : List Char) : splitOnChar sep l ≠ [] := by
  cases l with
  | nil => simp [splitOnChar]
  | cons c rest =>
    simp only [splitOnChar]
    split <;> simp

theorem splitOnChar_length (sep : Char) (l : List Char) :
    (splitOnChar sep l).length = l.count sep + 1 := by
  induction l with
  | nil => rfl
  | cons c cs ih =>
    simp only [splitOnChar, List.count_cons]
    by_cases h : c = sep
    · simp [h, ih]
    · have hne : splitOnChar sep cs ≠ [] := splitOnChar_ne_nil sep cs
      have htail : (splitOnChar sep cs).tail.length = (splitOnChar sep cs).length - 1 :=
        List.length_tail _
      have hpos : 0 < (splitOnChar sep cs).length := List.length_pos.mpr hne
      have hbeq : (c == sep) = false := beq_eq_false_iff_ne.mpr h
      simp [h, hbeq, htail, ih]

/-- C5 counterexample: the repository id "/" (empty author, empty name) is
accepted by the argument check — it is not rejected, contradicting the
claim that both parts must be non-empty. -/
theorem c5_empty_parts_accepted : checkRepoId "/" = some ("", "") := by
  rfl

/-- C5 (amended): parsing the repository identifier succeeds exactly when
the trimmed identifier contains at least one "/" separator (so that it
splits into an author part and a name part, either of which may be empty);
an identifier with no "/" is rejected with the fatal configuration error
before any download starts (modelled by `none`). -/
theorem c5_repo_id_accepted_iff (s : String) :
    (checkRepoId s).isSome = true ↔ '/' ∈ rustTrim s.data := by
  have hlen := splitOnChar_length '/' (rustTrim s.data)
  have hmem : '/' ∈ rustTrim s.data ↔ 0 < (rustTrim s.data).count '/' :=
    (List.count_pos_iff).symm
  unfold checkRepoId
  rcases hsp : splitOnChar '/' (rustTrim s.data) with _ | ⟨a, _ | ⟨b, t⟩⟩
  · exact absurd hsp (splitOnChar_ne_nil _ _)
  · rw [hsp] at hlen
    simp only [List.length_cons, List.length_nil] at hlen
    show (none : Option (String × String)).isSome = true ↔ '/' ∈ rustTrim s.data
    simp only [Option.isSome_none, Bool.false_eq_true, false_iff]
    rw [hmem]
    omega
  · rw [hsp] at hlen
    simp only [List.length_cons] at hlen
    show (some (String.mk a, String.mk b)).isSome = true ↔ '/' ∈ rustTrim s.data
    simp only [Option.isSome_some, eq_self_iff_true, true_iff]
    rw [hmem]
    omega

/-! ## Claim C7 -/

/-- C7 counterexample: for the listing line "abc - model.bin", the filename
the code uses is "model.bin", not the raw text " model.bin" following the
first "-": the code additionally trims surrounding whitespace. -/
theorem c7_trim_matters :
    extractFileName "abc - model.bin" ≠ specTextAfterFirstDash "abc - model.bin" := by
  decide

/-- C7 (amended): for every line of the large-file listing, the asset
filename used for both the download URL and the destination path is the
text following the first "-" separator, trimmed of leading and trailing
whitespace. -/
theorem c7_file_name_extraction (line : String) :
    extractFileName line =
      (specTextAfterFirstDash line).map (fun t => String.mk (rustTrim t.data)) := by
  unfold extractFileName specTextAfterFirstDash
  cases splitOnceChar '-' line.data with
  | none => rfl
  | some p => rfl

/-! ## Claim C10 -/

theorem splitOnceChar_eq_none_iff (sep : Char) (l : List Char) :
    splitOnceChar sep l = none ↔ sep ∉ l := by
  induction l with
  | nil => simp [splitOnceChar]
  | cons c cs ih =>
    by_cases h : c = sep
    · subst h
      simp [splitOnceChar]
    · have hne : (sep = c) → False := fun hc => h hc.symm
      simp [splitOnceChar, h, ih, Option.map_eq_none', List.mem_cons, hne]
      exact fun _ hc => hne hc

theorem enumIdx_mem {α : Type} (a : α) (l : List α) (h : a ∈ l) (k : Nat) :
    ∃ i : Nat, (i, a) ∈ enumIdx k l := by
  induction l generalizing k with
  | nil => cases h
  | cons b bs ih =>
    rcases List.mem_cons.mp h with hb | hbs
    · subst hb
      exact ⟨k, List.mem_cons_self _ _⟩
    · obtain ⟨i, hi⟩ := ih hbs (k + 1)
      exact ⟨i, List.mem_cons_of_mem _ hi⟩

theorem optionTraverse_eq_none_of_mem {α β : Type} (f : α → Option β) (l : List α)
    (x : α) (hx : x ∈ l) (hf : f x = none) : optionTraverse f l = none := by
  induction l with
  | nil => cases hx
  | cons a as ih =>
    rcases List.mem_cons.mp hx with hxa | hxs
    · subst hxa
      simp [optionTraverse, hf]
    · unfold optionTraverse
      cases hfa : f a with
      | none => rfl
      | some b =>
        rw [ih hxs]

/-- C10: a listing line with no "-" makes job construction panic (modelled
by `buildJobs` returning `none`), aborting the whole run rather than
skipping the line; conversely every line containing at least one "-"
parses into an asset name without error. -/
theorem c10_missing_dash_aborts (proxy endpoint : Url) (savePath : String)
    (lines : List String) (line : String) :
    (line ∈ lines → '-' ∉ line.data → buildJobs proxy endpoint savePath lines = none) ∧
    ('-' ∈ line.data → (extractFileName line).isSome = true) := by
  constructor
  · intro hmem hdash
    obtain ⟨i, hi⟩ := enumIdx_mem line lines hmem 0
    apply optionTraverse_eq_none_of_mem _ _ (i, line) hi
    have hnone : extractFileName line = none := by
      unfold extractFileName
      rw [(splitOnceChar_eq_none_iff '-' line.data).mpr hdash]
      rfl
    unfold buildJob
    rw [hnone]
  · intro hdash
    have hne : splitOnceChar '-' line.data ≠ none := by
      intro hn
      exact ((splitOnceChar_eq_none_iff '-' line.data).mp hn) hdash
    unfold extractFileName
    cases hs : splitOnceChar '-' line.data with
    | none => exact absurd hs hne
    | some p => rfl

/-- C10 witness: the single-line listing ["nodash"] aborts job
construction, while the line "x- a.bin" parses. -/
theorem c10_witness :
    buildJobs ⟨"https", "p", "/"⟩ ⟨"https", "h", "/r/"⟩ "d" ["nodash"] = none ∧
    (extractFileName "x- a.bin").isSome = true :=
  ⟨(c10_missing_dash_aborts ⟨"https", "p", "/"⟩ ⟨"https", "h", "/r/"⟩ "d" ["nodash"] "nodash").1
      (List.mem_singleton.mpr rfl) (by decide),
    (c10_missing_dash_aborts ⟨"https", "p", "/"⟩ ⟨"https", "h", "/r/"⟩ "d" [] "x- a.bin").2
      (by decide)⟩

/-! ## Claim C8 -/

theorem optionTraverse_length {α β : Type} (f : α → Option β) (l : List α) (bs : List β)
    (h : optionTraverse f l = some bs) : bs.length = l.length := by
  induction l generalizing bs with
  | nil =>
    cases h
    rfl
  | cons a as ih =>
    unfold optionTraverse at h
    cases hfa : f a with
    | none => rw [hfa] at h; cases h
    | some b =>
      rw [hfa] at h
      cases ht : optionTraverse f as with
      | none => rw [ht] at h; cases h
      | some bs2 =>
        rw [ht] at h
        cases h
        simp [ih bs2 ht]

theorem optionTraverse_get {α β : Type} (f : α → Option β) (l : List α) (bs : List β)
    (h : optionTraverse f l = some bs) :
    ∀ (i : Nat) (x : α), l[i]? = some x → ∃ y : β, f x = some y ∧ bs[i]? = some y := by
  induction l generalizing bs with
  | nil =>
    intro i x hx
    simp at hx
  | cons a as ih =>
    unfold optionTraverse at h
    cases hfa : f a with
    | none => rw [hfa] at h; cases h
    | some b =>
      rw [hfa] at h
      cases ht : optionTraverse f as with
      | none => rw [ht] at h; cases h
      | some bs2 =>
        rw [ht] at h
        cases h
        intro i x hx
        match i with
        | 0 =>
          have hax : a = x := by simpa using hx
          subst hax
          exact ⟨b, hfa, by simp⟩
        | j + 1 =>
          have hx2 : as[j]? = some x := by simpa using hx
          obtain ⟨y, hy1, hy2⟩ := ih bs2 ht j x hx2
          exact ⟨y, hy1, by simpa using hy2⟩

theorem enumIdx_length {α : Type} (k : Nat) (l : List α) :
    (enumIdx k l).length = l.length := by
  induction l generalizing k with
  | nil => rfl
  | cons a as ih => simp [enumIdx, ih]

theorem enumIdx_get {α : Type} (l : List α) :
    ∀ (k i : Nat) (x : α), l[i]? = some x → (enumIdx k l)[i]? = some (k + i, x) := by
  induction l with
  | nil =>
    intro k i x hx
    simp at hx
  | cons a as ih =>
    intro k i x hx
    match i with
    | 0 =>
      have hax : a = x := by simpa using hx
      subst hax
      simp [enumIdx]
    | j + 1 =>
      have hx2 : as[j]? = some x := by simpa using hx
      have hrec := ih (k + 1) j x hx2
      have harith : k + 1 + j = k + (j + 1) := by omega
      simp only [enumIdx, List.getElem?_cons_succ]
      rw [hrec, harith]

theorem joinLoopAwaited_replicate (n : Nat) :
    joinLoopAwaited (List.replicate n (Except.ok ())) = n := by
  induction n with
  | zero => rfl
  | succ m ih => simp [List.replicate_succ, joinLoopAwaited, ih, Nat.add_comm]

theorem destPath_inj (save n1 n2 : String) (h : destPath save n1 = destPath save n2) :
    n1 = n2 := by
  unfold destPath at h
  have hd := congrArg String.data h
  rw [String.data_append (save ++ "/") n1, String.data_append (save ++ "/") n2] at hd
  exact String.ext (List.append_cancel_left hd)

/-- C8: when the fan-out over a listing of length N succeeds, exactly N
download jobs are created (one per listing entry, each carrying its index
`i` and the total N), each job's destination path is derived 1:1 from its
asset name under the target directory (and that derivation is injective),
and on a fully successful run the join loop awaits exactly N completions. -/
theorem c8_fanout_invariants (proxy endpoint : Url) (savePath : String)
    (lines : List String) (jobs : List DownloadJob)
    (h : buildJobs proxy endpoint savePath lines = some jobs) :
    jobs.length = lines.length ∧
    (∀ (i : Nat) (line : String), lines[i]? = some line →
      ∃ (job : DownloadJob) (name : String),
        jobs[i]? = some job ∧ extractFileName line = some name ∧
        job.index = i ∧ job.total = lines.length ∧ job.dest = destPath savePath name) ∧
    joinLoopAwaited (List.replicate lines.length (Except.ok ())) = lines.length ∧
    (∀ n1 n2 : String, destPath savePath n1 = destPath savePath n2 → n1 = n2) := by
  refine ⟨?_, ?_, joinLoopAwaited_replicate _, fun n1 n2 => destPath_inj savePath n1 n2⟩
  · have h1 := optionTraverse_length _ _ _ h
    rw [enumIdx_length] at h1
    exact h1
  · intro i line hline
    have he := enumIdx_get lines 0 i line hline
    rw [Nat.zero_add] at he
    obtain ⟨job, hf, hji⟩ := optionTraverse_get _ _ _ h i (i, line) he
    have hf2 : buildJob proxy endpoint savePath lines.length i line = some job := hf
    unfold buildJob at hf2
    cases hn : extractFileName line with
    | none => rw [hn] at hf2; cases hf2
    | some name =>
      rw [hn] at hf2
      cases hrp : repoPathOf endpoint with
      | none => rw [hrp] at hf2; cases hf2
      | some rp =>
        rw [hrp] at hf2
        cases hf2
        exact ⟨_, name, hji, rfl, rfl, rfl, rfl⟩

/-- C8 witness: a two-line listing produces exactly two jobs and the
theorem's invariants hold for them. -/
theorem c8_witness :
    ([{ index := 0, total := 2,
        url := "https://px/https://huggingface.co/google/gemma-2-2b-it/resolve/main/a.bin",
        dest := "d/a.bin" },
      { index := 1, total := 2,
        url := "https://px/https://huggingface.co/google/gemma-2-2b-it/resolve/main/b.bin",
        dest := "d/b.bin" }] : List DownloadJob).length = (["x- a.bin", "y - b.bin"] : List String).length ∧
    (∀ (i : Nat) (line : String), (["x- a.bin", "y - b.bin"] : List String)[i]? = some line →
      ∃ (job : DownloadJob) (name : String),
        ([{ index := 0, total := 2,
            url := "https://px/https://huggingface.co/google/gemma-2-2b-it/resolve/main/a.bin",
            dest := "d/a.bin" },
          { index := 1, total := 2,
            url := "https://px/https://huggingface.co/google/gemma-2-2b-it/resolve/main/b.bin",
            dest := "d/b.bin" }] : List DownloadJob)[i]? = some job ∧
        extractFileName line = some name ∧
        job.index = i ∧ job.total = (["x- a.bin", "y - b.bin"] : List String).length ∧
        job.dest = destPath "d" name) ∧
    joinLoopAwaited (List.replicate (["x- a.bin", "y - b.bin"] : List String).length
      (Except.ok ())) = (["x- a.bin", "y - b.bin"] : List String).length ∧
    (∀ n1 n2 : String, destPath "d" n1 = destPath "d" n2 → n1 = n2) :=
  c8_fanout_invariants ⟨"https", "px", "/"⟩ ⟨"https", "h", "/google/gemma-2-2b-it/"⟩ "d"
    ["x- a.bin", "y - b.bin"] _ rfl

end HuggingfaceRs
